import Mathlib

set_option maxRecDepth 16384

/-!
Verification of the studyquiz RAG service (src/main.py, src/rag.py).

The development shallowly embeds, over `List Char` and plain Lean data:
  * the JSON value model and a model of Python's `json.loads` (subset:
    null/true/false, integers, escape-free strings, arrays, objects;
    the concrete payloads appearing in the claims stay inside this subset);
  * the raw-output extraction of `generate_quiz` (the end-anchored regex
    `\[\s*\{.*\}\s*\]\s*$` and the `find`/`rfind` bracket fallback);
  * the per-item quiz validation loop of `generate_quiz`;
  * the chunk store (`chunks` table) as a list of rows, the `ingest`
    endpoint, the `limit 10` retrieval of `generate_quiz`;
  * `chunk_text` from rag.py, as a fuel-indexed loop so that its
    non-termination for `overlap >= size` is expressible.
-/

/-- JSON values as produced by `json.loads`: strings are char lists,
numbers restricted to integers (all payloads in this development are
integral), objects are key/value lists in textual order. -/
inductive J where
  | null
  | bool (b : Bool)
  | num (n : Int)
  | str (s : List Char)
  | arr (l : List J)
  | obj (kvs : List (List Char × J))
  deriving Repr

mutual

/-- Model of Python `==` on JSON values, as used by `in` on lists.
Objects are compared in insertion order (Python compares dicts as
unordered maps; every comparison arising in the claims is between
scalars or strings, where the two notions agree). -/
def jeq : J → J → Bool
  | J.null, J.null => true
  | J.bool a, J.bool b => a == b
  | J.num a, J.num b => a == b
  | J.str a, J.str b => a == b
  | J.arr a, J.arr b => jeqList a b
  | J.obj a, J.obj b => jeqKVs a b
  | _, _ => false

def jeqList : List J → List J → Bool
  | [], [] => true
  | a :: as, b :: bs => jeq a b && jeqList as bs
  | _, _ => false

def jeqKVs : List (List Char × J) → List (List Char × J) → Bool
  | [], [] => true
  | (k1, v1) :: as, (k2, v2) :: bs => k1 == k2 && jeq v1 v2 && jeqKVs as bs
  | _, _ => false

end

/-- Python `x in xs` for a JSON list. -/
def jContains (xs : List J) (x : J) : Bool :=
  xs.any (fun e => jeq x e)

/-- Dict lookup. `json.loads` keeps the last occurrence of a duplicated
key, so lookup returns the last binding. -/
def jLookup (kvs : List (List Char × J)) (k : List Char) : Option J :=
  match kvs.reverse.find? (fun p => p.1 == k) with
  | some p => some p.2
  | none => none

/-- JSON whitespace accepted by `json.loads` between tokens. -/
def isJsonWs (c : Char) : Bool :=
  c = ' ' || c = '\t' || c = '\n' || c = '\r'

def skipJsonWs (l : List Char) : List Char :=
  l.dropWhile isJsonWs

/-- String body parser: consume characters up to the closing quote.
Escape sequences are outside the modelled subset (none occur in the
payloads of the claims). -/
def parseStrAux : List Char → List Char → Option (List Char × List Char)
  | [], _ => none
  | c :: rest, acc =>
    if c = '"' then some (acc, rest)
    else if c = '\\' then none
    else parseStrAux rest (acc ++ [c])

def digitsVal (ds : List Char) : Nat :=
  ds.foldl (fun a c => a * 10 + (c.toNat - 48)) 0

/-- Unsigned integer literal. -/
def parseNatTok (l : List Char) : Option (Nat × List Char) :=
  let ds := l.takeWhile Char.isDigit
  if ds.isEmpty then none
  else some (digitsVal ds, l.dropWhile Char.isDigit)

/-- Comma-separated array elements after the opening bracket (non-empty
case), parameterised by the value parser; fuel bounds the element count. -/
def parseElems (pv : List Char → Option (J × List Char)) :
    Nat → List Char → List J → Option (J × List Char)
  | 0, _, _ => none
  | n + 1, l, acc =>
    match pv l with
    | none => none
    | some (v, rest) =>
      match skipJsonWs rest with
      | ',' :: rest2 => parseElems pv n rest2 (acc ++ [v])
      | ']' :: rest2 => some (J.arr (acc ++ [v]), rest2)
      | _ => none

/-- Comma-separated object members after the opening brace (non-empty
case). -/
def parseMembers (pv : List Char → Option (J × List Char)) :
    Nat → List Char → List (List Char × J) → Option (J × List Char)
  | 0, _, _ => none
  | n + 1, l, acc =>
    match skipJsonWs l with
    | '"' :: rest =>
      match parseStrAux rest [] with
      | none => none
      | some (k, rest2) =>
        match skipJsonWs rest2 with
        | ':' :: rest3 =>
          match pv rest3 with
          | none => none
          | some (v, rest4) =>
            match skipJsonWs rest4 with
            | ',' :: rest5 => parseMembers pv n rest5 (acc ++ [(k, v)])
            | '\x7d' :: rest5 => some (J.obj (acc ++ [(k, v)]), rest5)
            | _ => none
        | _ => none
    | _ => none

/-- Recursive-descent JSON value parser; fuel bounds nesting depth. -/
def parseJ : Nat → List Char → Option (J × List Char)
  | 0, _ => none
  | fuel + 1, l =>
    match skipJsonWs l with
    | 'n' :: 'u' :: 'l' :: 'l' :: rest => some (J.null, rest)
    | 't' :: 'r' :: 'u' :: 'e' :: rest => some (J.bool true, rest)
    | 'f' :: 'a' :: 'l' :: 's' :: 'e' :: rest => some (J.bool false, rest)
    | '"' :: rest =>
      match parseStrAux rest [] with
      | some (s, rest2) => some (J.str s, rest2)
      | none => none
    | '[' :: rest =>
      match skipJsonWs rest with
      | ']' :: rest2 => some (J.arr [], rest2)
      | _ => parseElems (parseJ fuel) (rest.length + 1) rest []
    | '\x7b' :: rest =>
      match skipJsonWs rest with
      | '\x7d' :: rest2 => some (J.obj [], rest2)
      | _ => parseMembers (parseJ fuel) (rest.length + 1) rest []
    | '-' :: rest =>
      match parseNatTok rest with
      | some (n, rest2) => some (J.num (-(n : Int)), rest2)
      | none => none
    | c :: rest =>
      if c.isDigit then
        match parseNatTok (c :: rest) with
        | some (n, rest2) => some (J.num (n : Int), rest2)
        | none => none
      else none
    | [] => none

/-- Model of `json.loads`: parse one value, then require only whitespace
to remain; `none` models a raised `JSONDecodeError`. -/
def pyJsonLoads (l : List Char) : Option J :=
  match parseJ (l.length + 1) l with
  | some (v, rest) => if (skipJsonWs rest).isEmpty then some v else none
  | none => none

/-- An `HTTPException(status_code=..., detail=...)` raised by the service. -/
structure HErr where
  status : Nat
  detail : List Char
  deriving Repr, DecidableEq

/-- `f"Quiz item {i}" ++ tail` used by the three per-item messages. -/
def itemMsg (i : Nat) (tail : String) : List Char :=
  "Quiz item ".toList ++ (Nat.repr i).toList ++ tail.toList

/-- The per-item checks of `generate_quiz` (main.py lines 307-313), in
source order: item is an object; has an `options` key holding a list of
length 4; has a `correct` key whose value occurs in that list.  `none`
means the item passed. -/
def checkItem (i : Nat) (q : J) : Option HErr :=
  match q with
  | J.obj kvs =>
    match jLookup kvs "options".toList with
    | some (J.arr opts) =>
      if opts.length = 4 then
        match jLookup kvs "correct".toList with
        | some c =>
          if jContains opts c then none
          else some ⟨500, itemMsg i " correct must match one option"⟩
        | none => some ⟨500, itemMsg i " correct must match one option"⟩
      else some ⟨500, itemMsg i " must have 4 options"⟩
    | some _ => some ⟨500, itemMsg i " must have 4 options"⟩
    | none => some ⟨500, itemMsg i " must have 4 options"⟩
  | _ => some ⟨500, itemMsg i " is not an object"⟩

/-- The `for i, q in enumerate(quiz)` validation loop: first failing item
wins. -/
def validateList : Nat → List J → Option HErr
  | _, [] => none
  | i, q :: rest =>
    match checkItem i q with
    | some e => some e
    | none => validateList (i + 1) rest

/-- `generate_quiz` validation of the parsed value: must be a JSON array,
then every item must pass `checkItem`; on success the caller gets the
quiz back unchanged. -/
def validateQuiz (j : J) : Except HErr (List J) :=
  match j with
  | J.arr items =>
    match validateList 0 items with
    | some e => Except.error e
    | none => Except.ok items
  | _ => Except.error ⟨500, "Quiz is not a JSON array".toList⟩

/-- Python `\s` on ASCII, as matched by the extraction regex. -/
def isPyWs (c : Char) : Bool :=
  c = ' ' || c = '\t' || c = '\n' || c = '\r' || c = '\x0b' || c = '\x0c'

def dropTrailingWs (l : List Char) : List Char :=
  (l.reverse.dropWhile isPyWs).reverse

/-- The unique position usable for `\}\s*\]\s*$`: strip trailing
whitespace (the final `\s*$`), require `]`, strip whitespace again
(`\s*`), require `\x7d`; returns the index of that `\x7d`.  The brace and
bracket found this way are the only candidates, since anything between
them or after the bracket must be whitespace. -/
def closeBracePos (raw : List Char) : Option Nat :=
  let t := dropTrailingWs raw
  match t.getLast? with
  | some ']' =>
    let t2 := dropTrailingWs t.dropLast
    match t2.getLast? with
    | some '\x7d' => some (t2.length - 1)
    | _ => none
  | _ => none

/-- `\[\s*\{` anchored at position `i`: requires `[` at `i`, then
whitespace, then `\x7b`; returns the brace's index. -/
def openBracePos (raw : List Char) (i : Nat) : Option Nat :=
  if raw.get? i = some '[' then
    let j := i + 1 + ((raw.drop (i + 1)).takeWhile isPyWs).length
    if raw.get? j = some '\x7b' then some j else none
  else none

/-- Model of `re.search(r"\[\s*\{.*\}\s*\]\s*$", raw, re.S)`, returning
`match.group(0)`.  A match exists iff the text ends (modulo whitespace)
with `\x7d ws* ]` and some `[ ws* \x7b` starts before that closing brace;
`re.search` takes the leftmost such start, and the trailing `\s*$`
extends the match to the end of the text. -/
def reSearchQuizArray (raw : List Char) : Option (List Char) :=
  match closeBracePos raw with
  | none => none
  | some k =>
    match (List.range raw.length).find?
        (fun i => (openBracePos raw i).any (fun m => m < k)) with
    | some i => some (raw.drop i)
    | none => none

/-- Python `str.find` for a single-character needle: index of first
occurrence, `-1` if absent. -/
def pyFind (c : Char) (l : List Char) : Int :=
  match l.findIdx? (fun x => x == c) with
  | some n => (n : Int)
  | none => -1

/-- Python `str.rfind` for a single-character needle. -/
def pyRFind (c : Char) (l : List Char) : Int :=
  match l.reverse.findIdx? (fun x => x == c) with
  | some n => (l.length : Int) - 1 - (n : Int)
  | none => -1

/-- Python slice `l[a:b]` with int indices (negative indices count from
the end, out-of-range clamps). -/
def pySliceI (l : List Char) (a b : Int) : List Char :=
  let n : Int := l.length
  let a' := (if a < 0 then max (n + a) 0 else min a n).toNat
  let b' := (if b < 0 then max (n + b) 0 else min b n).toNat
  (l.take b').drop a'

/-- The JSON-array extraction of `generate_quiz` (main.py lines 286-296):
try the end-anchored regex; on failure fall back to the substring from
the first `[` to the last `]`; if none exists, fail with a detail that
interpolates the whole raw output. -/
def extractRawJson (raw : List Char) : Except HErr (List Char) :=
  match reSearchQuizArray raw with
  | some g => Except.ok g
  | none =>
    let s := pyFind '[' raw
    let e := pyRFind ']' raw
    if s = -1 ∨ e = -1 ∨ e ≤ s then
      Except.error ⟨500, "No JSON array found in model output: ".toList ++ raw⟩
    else Except.ok (pySliceI raw s (e + 1))

/-- The parse-extract-validate pipeline of `generate_quiz` applied to the
raw completion text (main.py lines 284-315). -/
def generateFromRaw (raw : List Char) : Except HErr (List J) :=
  match extractRawJson raw with
  | Except.error e => Except.error e
  | Except.ok rj =>
    match pyJsonLoads rj with
    | none => Except.error ⟨500, "Invalid JSON from model: ".toList ++ rj⟩
    | some v => validateQuiz v

/-- A row of the `chunks` table.  Embedding vectors are modelled as
rational coordinate lists (the external embedder is an opaque service;
its vectors only flow through the store). -/
structure ChunkRow where
  project_id : String
  doc_id : String
  doc_title : String
  page : Option Int
  chunk_text : String
  embedding : List Rat
  deriving Repr, DecidableEq

/-- A document of an `/ingest` request body. -/
structure IngestDocument where
  title : String
  text : String
  page : Option Int
  deriving Repr, DecidableEq

/-- The rows inserted for one document by `ingest` (main.py lines
175-196): `chunks = [doc.text]` (single-chunk policy, `chunk_text` is
not called), one embedding per chunk via `zip`, one insert per pair. -/
def docRows (embedder : List String → List (List Rat)) (did : String)
    (pid : String) (doc : IngestDocument) : List ChunkRow :=
  let chunks := [doc.text]
  let vectors := embedder chunks
  (chunks.zip vectors).map
    (fun cv => ⟨pid, did, doc.title, doc.page, cv.1, cv.2⟩)

/-- All rows inserted by one `/ingest` call; `ids` supplies the
`uuid.uuid4()` per document. -/
def ingestRows (embedder : List String → List (List Rat))
    (ids : Nat → String) (pid : String) (docs : List IngestDocument) :
    List ChunkRow :=
  (docs.enum).flatMap (fun d => docRows embedder (ids d.1) pid d.2)

/-- State of the `chunks` table after an `/ingest` call commits. -/
def ingest (store : List ChunkRow) (embedder : List String → List (List Rat))
    (ids : Nat → String) (pid : String) (docs : List IngestDocument) :
    List ChunkRow :=
  store ++ ingestRows embedder ids pid docs

/-- The retrieval query of `generate_quiz` (main.py lines 217-225):
`select ... from chunks where project_id = :pid limit 10` — a project
filter and a row cap, with no ORDER BY and no query vector. -/
def retrieveRows (pid : String) (store : List ChunkRow) : List ChunkRow :=
  (store.filter (fun c => c.project_id == pid)).take 10

/-- Context assembly of `generate_quiz` (main.py lines 231-235). -/
def contextPart (c : ChunkRow) : String :=
  "[SOURCE: " ++ c.doc_title ++ " | PAGE: "
    ++ (match c.page with
        | none => "unknown"
        | some p => Int.repr p)
    ++ "]\n" ++ c.chunk_text

def buildContext (rows : List ChunkRow) : String :=
  String.intercalate "\n\n" (rows.map contextPart)

/-- The body of a `/generate_quiz` request. -/
structure QuizRequest where
  num_questions : Int
  language : String
  difficulty : String
  group_by_macro_topics : Bool
  answers_at_end : Bool

/-- The `generate_quiz` endpoint (main.py lines 211-315).  The chat
completion is modelled as a function of the request and the assembled
context (the literal prompt template wraps exactly these data); the
returned `Nat` counts completion-service calls, so that "no call is
made" is expressible.  With zero retrieved rows the endpoint raises
`HTTPException(400, "No study material found")` before any completion
call; otherwise the raw completion text goes through
`generateFromRaw`. -/
def generateQuiz (store : List ChunkRow) (pid : String)
    (completion : QuizRequest → String → String) (req : QuizRequest) :
    Except HErr (List J) × Nat :=
  let rows := retrieveRows pid store
  if rows.isEmpty then
    (Except.error ⟨400, "No study material found".toList⟩, 0)
  else
    (generateFromRaw (completion req (buildContext rows)).toList, 1)

/-- `re.sub(r"\s+", " ", text)`: collapse whitespace runs to single
spaces; the flag records whether the previous character was part of a
run. -/
def collapseWsAux : Bool → List Char → List Char
  | _, [] => []
  | prevWs, c :: rest =>
    if isPyWs c then
      if prevWs then collapseWsAux true rest
      else ' ' :: collapseWsAux true rest
    else c :: collapseWsAux false rest

/-- `re.sub(r"\s+", " ", text).strip()` from `chunk_text` (rag.py
line 7). -/
def pyNormalize (l : List Char) : List Char :=
  (((collapseWsAux false l).dropWhile isPyWs).reverse.dropWhile isPyWs).reverse

/-- One `while i < len(text)` loop of `chunk_text` (rag.py lines 8-12),
with an explicit fuel bound: `none` means the loop is still running
after `fuel` iterations.  The cursor is an `Int` because
`i += size - overlap` can fail to advance (or go negative) when
`overlap >= size`. -/
def chunkLoop (size overlap : Nat) :
    Nat → List Char → Int → List (List Char) → Option (List (List Char))
  | 0, t, i, acc => if i < (t.length : Int) then none else some acc
  | fuel + 1, t, i, acc =>
    if i < (t.length : Int) then
      chunkLoop size overlap fuel t (i + ((size : Int) - (overlap : Int)))
        (acc ++ [pySliceI t i (i + (size : Int))])
    else some acc

/-- `chunk_text(text, size, overlap)` run for `fuel` loop iterations. -/
def chunkTextFuel (text : List Char) (size overlap fuel : Nat) :
    Option (List (List Char)) :=
  chunkLoop size overlap fuel (pyNormalize text) 0 []

/-! ### Statement helpers (accessors over parsed quiz items) -/

/-- The question stem of a quiz item, when present. -/
def stemOf (q : J) : Option J :=
  match q with
  | J.obj kvs => jLookup kvs "question".toList
  | _ => none

/-- The options field of a quiz item, when present. -/
def optionsOf (q : J) : Option J :=
  match q with
  | J.obj kvs => jLookup kvs "options".toList
  | _ => none

/-- The correct marker of a quiz item, when present. -/
def correctOf (q : J) : Option J :=
  match q with
  | J.obj kvs => jLookup kvs "correct".toList
  | _ => none

/-- The explanation field of a quiz item, when present. -/
def explanationOf (q : J) : Option J :=
  match q with
  | J.obj kvs => jLookup kvs "explanation".toList
  | _ => none

/-- The source-provenance field of a quiz item, when present. -/
def sourceOf (q : J) : Option J :=
  match q with
  | J.obj kvs => jLookup kvs "source".toList
  | _ => none

/-- What passing the per-item validation guarantees about an item: it is
an object whose `options` value is a list of exactly 4 elements and
whose `correct` value occurs among them. -/
def itemValid (q : J) : Prop :=
  ∃ kvs opts c, q = J.obj kvs
    ∧ jLookup kvs "options".toList = some (J.arr opts)
    ∧ opts.length = 4
    ∧ jLookup kvs "correct".toList = some c
    ∧ jContains opts c = true

/-- Squared Euclidean distance between embedding vectors; on normalized
embeddings this induces the same ordering as cosine/angular distance. -/
def sqDist (u v : List Rat) : Rat :=
  ((u.zip v).map (fun p => (p.1 - p.2) ^ 2)).sum

/-- The retrieved sequence is ascending in distance to a query vector. -/
def distAscending (q : List Rat) (rows : List ChunkRow) : Prop :=
  rows.Chain' (fun a b => sqDist a.embedding q ≤ sqDist b.embedding q)

/-! ### Concrete payloads used in the theorems -/

/-- First-inserted chunk, embedding `[0, 1]`: distance 2 from the query
vector `[1, 0]`. -/
def rowFar : ChunkRow := ⟨"p", "d1", "T1", none, "t1", [0, 1]⟩

/-- Second-inserted chunk, embedding `[1, 0]`: distance 0 from the query
vector `[1, 0]`. -/
def rowNear : ChunkRow := ⟨"p", "d2", "T2", none, "t2", [1, 0]⟩

/-- A fully well-formed quiz item. -/
def qGood : J :=
  J.obj [("question".toList, J.str "Q1".toList),
    ("options".toList, J.arr [J.str "a".toList, J.str "b".toList,
      J.str "c".toList, J.str "d".toList]),
    ("correct".toList, J.str "a".toList),
    ("explanation".toList, J.str "E".toList)]

/-- A quiz item whose four options are all the same non-distinct string
and whose stem is "Q". -/
def qDup : J :=
  J.obj [("question".toList, J.str "Q".toList),
    ("options".toList, J.arr [J.str "a".toList, J.str "a".toList,
      J.str "a".toList, J.str "a".toList]),
    ("correct".toList, J.str "a".toList)]

/-- A raw model output whose single item carries only `options` and
`correct`. -/
def rawMinimal : List Char :=
  "[\x7b\"options\": [\"a\", \"b\", \"c\", \"d\"], \"correct\": \"b\"\x7d]".toList

/-- The item that output parses to. -/
def qMinimal : J :=
  J.obj [("options".toList, J.arr [J.str "a".toList, J.str "b".toList,
    J.str "c".toList, J.str "d".toList]),
    ("correct".toList, J.str "b".toList)]

/-- A raw model output failing both the direct regex and the bracket
fallback. -/
def rawProse : List Char := "The model refused to emit a JSON array.".toList

/-- A well-formed quiz array, as a raw JSON text. -/
def arrEmbedded : List Char :=
  "[\x7b\"question\": \"Q1\", \"options\": [\"a\", \"b\", \"c\", \"d\"], \"correct\": \"a\", \"explanation\": \"E\", \"source\": \"S.pdf\", \"page\": null\x7d]".toList

/-- The quiz item `arrEmbedded` parses to. -/
def itemEmbedded : J :=
  J.obj [("question".toList, J.str "Q1".toList),
    ("options".toList, J.arr [J.str "a".toList, J.str "b".toList,
      J.str "c".toList, J.str "d".toList]),
    ("correct".toList, J.str "a".toList),
    ("explanation".toList, J.str "E".toList),
    ("source".toList, J.str "S.pdf".toList),
    ("page".toList, J.null)]

/-- A trailing code-fence close marker. -/
def fenceTail : List Char := "\n```".toList

/-! ### Model sanity checks -/

example : pyJsonLoads "[]".toList = some (J.arr []) := rfl
example : pyJsonLoads " [1, -2, null] ".toList
    = some (J.arr [J.num 1, J.num (-2), J.null]) := rfl
example :
    pyJsonLoads "[\x7b\"a\": \"x\"\x7d]".toList
    = some (J.arr [J.obj [("a".toList, J.str "x".toList)]]) := rfl
example : pyJsonLoads "[1, 2".toList = none := rfl
example : pyJsonLoads "no json".toList = none := rfl

example : chunkTextFuel "abcdef".toList 4 1 10
    = some ["abcd".toList, "def".toList] := rfl
example : chunkTextFuel "a  \n b".toList 4 1 10 = some ["a b".toList] := rfl
example : chunkTextFuel "".toList 4 1 0 = some [] := rfl
example : chunkTextFuel "ab".toList 1 1 3 = none := rfl

/-! ### C2 — empty project is a 400 precondition failure, no model call -/

/-- C2: for every project with zero stored chunks, `generate_quiz`
fails with HTTP 400 "No study material found" (a client-correctable
error, distinct from the 500s used for internal failures) and the
completion service is called zero times. -/
theorem generateQuiz_empty_store_precondition (store : List ChunkRow)
    (pid : String) (completion : QuizRequest → String → String)
    (req : QuizRequest)
    (h : store.filter (fun c => c.project_id == pid) = []) :
    generateQuiz store pid completion req
      = (Except.error ⟨400, "No study material found".toList⟩, 0) := by
  unfold generateQuiz retrieveRows
  rw [h]
  rfl

/-- Witness for C2 at a concrete empty store. -/
theorem generateQuiz_empty_store_precondition_witness :
    generateQuiz [] "p1" (fun _ _ => "") ⟨5, "English", "medium", false, false⟩
      = (Except.error ⟨400, "No study material found".toList⟩, 0) :=
  generateQuiz_empty_store_precondition [] "p1" (fun _ _ => "")
    ⟨5, "English", "medium", false, false⟩ rfl

/-! ### C9 — retrieval is scoped to the requested project -/

/-- C9: retrieval for a quiz request never returns a chunk of a
different project: every retrieved row satisfies the `where project_id
= :pid` filter. -/
theorem retrieve_scoped_to_project (store : List ChunkRow) (pid : String)
    (c : ChunkRow) (h : c ∈ retrieveRows pid store) : c.project_id = pid := by
  unfold retrieveRows at h
  have h2 := List.take_subset 10 _ h
  have h3 := (List.mem_filter.mp h2).2
  simpa using h3

/-- Witness for C9 at a concrete two-project store. -/
theorem retrieve_scoped_to_project_witness :
    (⟨"p1", "d1", "T", none, "x", [0]⟩ : ChunkRow).project_id = "p1" :=
  retrieve_scoped_to_project
    [⟨"p2", "d2", "U", none, "y", [1]⟩, ⟨"p1", "d1", "T", none, "x", [0]⟩]
    "p1" ⟨"p1", "d1", "T", none, "x", [0]⟩ (by decide)

/-! ### C5 — retrieval order -/

/-- C5 counterexample: the claim says retrieval is sorted ascending by
distance to the query vector.  For a store holding two chunks of the
same project with embeddings `[0, 1]` and `[1, 0]` and the query vector
`[1, 0]`, retrieval returns them in insertion order, with the farther
chunk (distance 2) before the nearer one (distance 0): the retrieval
query has no ORDER BY and uses no query vector at all. -/
theorem retrieve_not_sorted_by_distance :
    ¬ distAscending [1, 0] (retrieveRows "p" [rowFar, rowNear]) := by
  intro h
  unfold distAscending at h
  have hr : retrieveRows "p" [rowFar, rowNear] = [rowFar, rowNear] := rfl
  rw [hr] at h
  rcases List.chain'_cons.mp h with ⟨hab, -⟩
  simp only [rowFar, rowNear, sqDist, List.zip, List.zipWith, List.map,
    List.sum_cons, List.sum_nil] at hab
  norm_num at hab

/-- C5 amended: retrieval returns the first `min 10 available` chunks of
the requested project in insertion (storage) order — a prefix of the
project's chunk list — computing no distances and taking no query
vector. -/
theorem retrieve_prefix_insertion_order (pid : String) (store : List ChunkRow) :
    retrieveRows pid store <+: store.filter (fun c => c.project_id == pid)
      ∧ (retrieveRows pid store).length
        = min 10 (store.filter (fun c => c.project_id == pid)).length := by
  refine ⟨List.take_prefix _ _, ?_⟩
  simp [retrieveRows]

/-! ### C4 — ingest chunk count -/

/-- C4 counterexample: ingesting one document titled "Cell Membranes"
with page 3 and a 3000-character body does not store 3 chunks — the
`ingest` endpoint stores the whole body as a single chunk and never
calls `chunk_text`. -/
theorem ingest_single_chunk_not_three :
    ¬ ((ingestRows (fun ts => ts.map (fun _ => [0])) (fun _ => "u0") "p"
        [⟨"Cell Membranes", String.mk (List.replicate 3000 'a'), some 3⟩]).length
      = 3) := by
  decide

/-- C4 amended: ingesting one document stores exactly one chunk, holding
the entire body, with the document's page and title and the single
vector the embedder returns for the body; the `size`/`overlap`
chunking parameters play no role in `ingest`. -/
theorem ingest_stores_one_chunk_per_document
    (embedder : List String → List (List Rat)) (ids : Nat → String)
    (pid title text : String) (page : Option Int) (v : List Rat)
    (h : embedder [text] = [v]) :
    ingestRows embedder ids pid [⟨title, text, page⟩]
      = [⟨pid, ids 0, title, page, text, v⟩] := by
  unfold ingestRows docRows
  simp [List.enum, h]

/-- Witness for C4 at the scenario's document. -/
theorem ingest_stores_one_chunk_per_document_witness :
    ingestRows (fun ts => ts.map (fun _ => [0])) (fun _ => "u0") "p"
        [⟨"Cell Membranes", String.mk (List.replicate 3000 'a'), some 3⟩]
      = [⟨"p", "u0", "Cell Membranes", some 3,
          String.mk (List.replicate 3000 'a'), [0]⟩] :=
  ingest_stores_one_chunk_per_document (fun ts => ts.map (fun _ => [0]))
    (fun _ => "u0") "p" "Cell Membranes" (String.mk (List.replicate 3000 'a'))
    (some 3) [0] rfl

/-! ### C3 — chunker with `overlap >= size` -/

lemma chunkLoop_none_of_nonpos (size overlap : Nat) (h : size ≤ overlap)
    (t : List Char) (ht : t ≠ []) :
    ∀ fuel (i : Int), i ≤ 0 → ∀ acc, chunkLoop size overlap fuel t i acc = none := by
  have hlen : (0 : Int) < t.length := by
    exact_mod_cast List.length_pos.mpr ht
  intro fuel
  induction fuel with
  | zero =>
    intro i hi acc
    simp only [chunkLoop]
    rw [if_pos (by omega)]
  | succ n ih =>
    intro i hi acc
    simp only [chunkLoop]
    rw [if_pos (by omega)]
    exact ih (i + ((size : Int) - (overlap : Int))) (by omega) _

/-- C3: the code has no `overlap >= size` guard.  Whenever
`overlap >= size` and the normalized text is non-empty, the
`chunk_text` loop is still running after any number of iterations — it
never terminates, instead of failing with a configuration error. -/
theorem chunkText_overlap_ge_size_never_terminates (text : List Char)
    (size overlap : Nat) (h1 : size ≤ overlap)
    (h2 : pyNormalize text ≠ []) (fuel : Nat) :
    chunkTextFuel text size overlap fuel = none := by
  unfold chunkTextFuel
  exact chunkLoop_none_of_nonpos size overlap h1 _ h2 fuel 0 le_rfl []

/-- Witness for C3 at `chunk_text("ab", size=1, overlap=1)`. -/
theorem chunkText_overlap_ge_size_never_terminates_witness :
    chunkTextFuel "ab".toList 1 1 5 = none :=
  chunkText_overlap_ge_size_never_terminates "ab".toList 1 1 (by decide)
    (by decide) 5

/-! ### C1 — what acceptance by the validator guarantees -/

lemma checkItem_none_valid (i : Nat) (q : J) (h : checkItem i q = none) :
    itemValid q := by
  unfold checkItem at h
  cases q with
  | obj kvs =>
    dsimp only at h
    cases hov : jLookup kvs "options".toList with
    | none => rw [hov] at h; simp at h
    | some v =>
      cases v with
      | arr opts =>
        rw [hov] at h
        dsimp only at h
        by_cases hlen : opts.length = 4
        · rw [if_pos hlen] at h
          cases hco : jLookup kvs "correct".toList with
          | none => rw [hco] at h; simp at h
          | some c =>
            rw [hco] at h
            dsimp only at h
            by_cases hin : jContains opts c = true
            · exact ⟨kvs, opts, c, rfl, hov, hlen, hco, hin⟩
            · rw [if_neg hin] at h; simp at h
        · rw [if_neg hlen] at h; simp at h
      | null => rw [hov] at h; simp at h
      | bool b => rw [hov] at h; simp at h
      | num n => rw [hov] at h; simp at h
      | str s => rw [hov] at h; simp at h
      | obj kvs2 => rw [hov] at h; simp at h
  | null => simp at h
  | bool b => simp at h
  | num n => simp at h
  | str s => simp at h
  | arr l => simp at h

lemma validateList_none_valid :
    ∀ (i : Nat) (items : List J), validateList i items = none →
      ∀ q ∈ items, itemValid q := by
  intro i items
  induction items generalizing i with
  | nil => simp
  | cons a rest ih =>
    intro h q hq
    unfold validateList at h
    cases hc : checkItem i a with
    | some e => rw [hc] at h; simp at h
    | none =>
      rw [hc] at h
      rcases List.mem_cons.mp hq with rfl | hq2
      · exact checkItem_none_valid i q hc
      · exact ih (i + 1) h q hq2

/-- C1 amended: every quiz accepted by the output validator satisfies,
for every question in it: the question is an object, its `options` field
is a list of exactly 4 elements, and its `correct` value occurs among
the options.  (Distinctness and non-emptiness of options, uniqueness of
the matching option, and stem uniqueness are not checked by the code —
see the counterexample.) -/
theorem validateQuiz_ok_options_correct (j : J) (quiz : List J)
    (h : validateQuiz j = Except.ok quiz) : ∀ q ∈ quiz, itemValid q := by
  unfold validateQuiz at h
  cases j with
  | arr items =>
    dsimp only at h
    cases hv : validateList 0 items with
    | some e => rw [hv] at h; simp at h
    | none =>
      rw [hv] at h
      simp only [Except.ok.injEq] at h
      subst h
      exact validateList_none_valid 0 items hv
  | null => simp at h
  | bool b => simp at h
  | num n => simp at h
  | str s => simp at h
  | obj kvs => simp at h

/-- Witness for C1 at a concrete accepted quiz. -/
theorem validateQuiz_ok_options_correct_witness : itemValid qGood :=
  validateQuiz_ok_options_correct (J.arr [qGood]) [qGood] rfl qGood
    (by simp)

/-- C1 counterexample: the validator accepts a quiz of two identical
questions (equal stems) whose options are `["a","a","a","a"]` — not
distinct, and the correct marker matches all four options, not exactly
one.  The claimed invariants `len(set(options)) == 4`, "correct matches
exactly one option" and "no two questions share a stem" all fail on
this accepted quiz. -/
theorem validate_accepts_duplicate_options_and_stems :
    validateQuiz (J.arr [qDup, qDup]) = Except.ok [qDup, qDup]
      ∧ optionsOf qDup = some (J.arr [J.str "a".toList, J.str "a".toList,
          J.str "a".toList, J.str "a".toList])
      ∧ correctOf qDup = some (J.str "a".toList)
      ∧ stemOf qDup = some (J.str "Q".toList)
      ∧ ((J.arr [qDup, qDup]) = J.arr [qDup, qDup] ∧ stemOf qDup = stemOf qDup) := by
  exact ⟨rfl, rfl, rfl, rfl, rfl, rfl⟩

/-! ### C7 — question count is not reconciled -/

lemma validateList_none_of (items : List J)
    (h : ∀ (i : Nat) (q : J), q ∈ items → checkItem i q = none) :
    ∀ i, validateList i items = none := by
  induction items with
  | nil => intro i; rfl
  | cons a rest ih =>
    intro i
    unfold validateList
    rw [h i a (by simp)]
    exact ih (fun j q hq => h j q (by simp [hq])) (i + 1)

/-- C7 amended: the validator performs no question-count reconciliation
at all.  Any list of individually well-formed items is accepted —
fewer than requested, zero, or arbitrarily many more — and no warning
mechanism exists; the requested count is not an input of the
validation. -/
theorem validateQuiz_ignores_question_count (items : List J)
    (h : ∀ (i : Nat) (q : J), q ∈ items → checkItem i q = none) :
    validateQuiz (J.arr items) = Except.ok items := by
  unfold validateQuiz
  dsimp only
  rw [validateList_none_of items h 0]

/-- Witness for C7: six well-formed items are accepted unchanged. -/
theorem validateQuiz_ignores_question_count_witness :
    validateQuiz (J.arr [qGood, qGood, qGood, qGood, qGood, qGood])
      = Except.ok [qGood, qGood, qGood, qGood, qGood, qGood] :=
  validateQuiz_ignores_question_count _ (by
    intro i q hq
    simp only [List.mem_cons, List.not_mem_nil, or_false, or_self] at hq
    subst hq
    rfl)

/-- C7 counterexample: a quiz with 0 questions is not a validation
failure — the raw output `[]` passes extraction, parses to the empty
array, and the validation loop accepts it, returning the empty quiz. -/
theorem empty_quiz_accepted :
    generateFromRaw "[]".toList = Except.ok [] := rfl

/-! ### C10 — only `options` and `correct` are checked -/

/-- C10: the validator checks only `options` and `correct`; a model
output whose items have no question stem, no explanation and no source
provenance is accepted and returned to the caller. -/
theorem pipeline_accepts_question_less_items :
    generateFromRaw rawMinimal = Except.ok [qMinimal]
      ∧ stemOf qMinimal = none
      ∧ explanationOf qMinimal = none
      ∧ sourceOf qMinimal = none := by
  exact ⟨rfl, rfl, rfl, rfl⟩

/-! ### C8 — failure diagnostics embed the whole raw output -/

lemma openBracePos_eq_none_of_not_mem (raw : List Char) (h : '[' ∉ raw)
    (i : Nat) : openBracePos raw i = none := by
  unfold openBracePos
  cases hg : raw.get? i with
  | none => simp [hg]
  | some ch =>
    have hch : ch ≠ '[' := fun he => h (he ▸ List.get?_mem hg)
    simp [hg, hch]

lemma reSearch_none_of_no_lbracket (raw : List Char) (h : '[' ∉ raw) :
    reSearchQuizArray raw = none := by
  unfold reSearchQuizArray
  cases hc : closeBracePos raw with
  | none => rfl
  | some k =>
    dsimp only
    rw [List.find?_eq_none.mpr]
    intro i _
    rw [openBracePos_eq_none_of_not_mem raw h i]
    simp

/-- C8 amended: when the raw output contains no `[` at all — so both the
regex and the bracket fallback fail — the failure diagnostic is the
full raw output appended to a fixed message; no bounded snippet is
taken (the same holds for the invalid-JSON path, whose detail embeds
the whole extracted substring). -/
theorem extraction_failure_detail_full_raw (raw : List Char)
    (h : pyFind '[' raw = -1) :
    generateFromRaw raw
      = Except.error ⟨500, "No JSON array found in model output: ".toList ++ raw⟩ := by
  have hnone : raw.findIdx? (fun x => x == '[') = none := by
    cases hi : raw.findIdx? (fun x => x == '[') with
    | none => rfl
    | some n =>
      unfold pyFind at h
      rw [hi] at h
      simp at h
  have hmem : '[' ∉ raw := by
    intro hm
    have := List.findIdx?_eq_none_iff.mp hnone '[' hm
    simp at this
  unfold generateFromRaw extractRawJson
  rw [reSearch_none_of_no_lbracket raw hmem]
  dsimp only
  rw [h]
  simp

/-- Witness for C8 at a concrete bracket-free output. -/
theorem extraction_failure_detail_full_raw_witness :
    generateFromRaw "plain prose answer".toList
      = Except.error ⟨500,
          "No JSON array found in model output: ".toList
            ++ "plain prose answer".toList⟩ :=
  extraction_failure_detail_full_raw "plain prose answer".toList rfl

/-- C8 counterexample: the failure diagnostic for this output is not a
bounded snippet — the complete raw output is a suffix of the detail
string, which grows with the output. -/
theorem diagnostic_contains_full_output :
    generateFromRaw rawProse
      = Except.error ⟨500, "No JSON array found in model output: ".toList ++ rawProse⟩
      ∧ rawProse <:+ "No JSON array found in model output: ".toList ++ rawProse :=
  ⟨rfl, List.suffix_append _ _⟩

/-! ### C6 — recovery of an array embedded in surrounding text -/

lemma dropTrailingWs_eq_self (l : List Char) (c : Char)
    (hc : l.getLast? = some c) (hw : isPyWs c = false) :
    dropTrailingWs l = l := by
  have hkey : l.reverse.dropWhile isPyWs = l.reverse := by
    cases hr : l.reverse with
    | nil => simp
    | cons a t =>
      have hac : a = c := by
        have hh := List.head?_reverse l
        rw [hr, hc] at hh
        simpa using hh
      subst hac
      rw [List.dropWhile_cons, hw]
      simp
  unfold dropTrailingWs
  rw [hkey, List.reverse_reverse]

lemma closeBracePos_fence (x : List Char) :
    closeBracePos (x ++ fenceTail) = none := by
  have hlast : (x ++ fenceTail).getLast? = some '`' := by
    rw [List.getLast?_append_of_ne_nil x (by decide)]
    rfl
  unfold closeBracePos
  dsimp only
  rw [dropTrailingWs_eq_self _ '`' hlast (by decide), hlast]
  rfl

example : closeBracePos ("ab".toList ++ fenceTail) = none :=
  closeBracePos_fence "ab".toList

lemma findIdx?_eq_none_of_not_mem (needle : Char) (l : List Char)
    (h : needle ∉ l) : l.findIdx? (fun x => x == needle) = none := by
  rw [List.findIdx?_eq_none_iff]
  intro x hx
  simp only [beq_eq_false_iff_ne, ne_eq]
  intro he
  exact h (he ▸ hx)

lemma pyFind_embedded (pre : List Char) (h : '[' ∉ pre) :
    pyFind '[' (pre ++ arrEmbedded ++ fenceTail) = (pre.length : Int) := by
  unfold pyFind
  rw [List.append_assoc, List.findIdx?_append,
    findIdx?_eq_none_of_not_mem '[' pre h,
    show (arrEmbedded ++ fenceTail).findIdx? (fun x => x == '[') = some 0
      from rfl]
  simp

lemma pyRFind_embedded (pre : List Char) :
    pyRFind ']' (pre ++ arrEmbedded ++ fenceTail)
      = (pre.length : Int) + (arrEmbedded.length : Int) - 1 := by
  unfold pyRFind
  rw [List.reverse_append, List.reverse_append, List.findIdx?_append,
    show fenceTail.reverse.findIdx? (fun x => x == ']') = none from rfl,
    List.findIdx?_append,
    show arrEmbedded.reverse.findIdx? (fun x => x == ']') = some 0 from rfl]
  simp only [Option.none_or, Option.or_some, Option.map_some']
  have hlen : (pre ++ arrEmbedded ++ fenceTail).length
      = pre.length + arrEmbedded.length + fenceTail.length := by
    rw [List.length_append, List.length_append]
  rw [hlen, show fenceTail.reverse.length = 4 from rfl,
    show fenceTail.length = 4 from rfl]
  push_cast
  ring

lemma pySliceI_take_drop (l : List Char) (a b : Nat) (ha : a ≤ l.length)
    (hb : b ≤ l.length) :
    pySliceI l (a : Int) (b : Int) = (l.take b).drop a := by
  unfold pySliceI
  dsimp only
  have h1 : ¬ ((a : Int) < 0) := by omega
  have h2 : ¬ ((b : Int) < 0) := by omega
  rw [if_neg h1, if_neg h2]
  rw [min_eq_left (by exact_mod_cast ha), min_eq_left (by exact_mod_cast hb)]
  rw [Int.toNat_natCast, Int.toNat_natCast]

lemma extract_embedded (pre : List Char) (h : '[' ∉ pre) :
    extractRawJson (pre ++ arrEmbedded ++ fenceTail) = Except.ok arrEmbedded := by
  have hre : reSearchQuizArray (pre ++ arrEmbedded ++ fenceTail) = none := by
    unfold reSearchQuizArray
    rw [closeBracePos_fence (pre ++ arrEmbedded)]
  have hlen2 : (2 : Nat) ≤ arrEmbedded.length := by decide
  unfold extractRawJson
  rw [hre]
  dsimp only
  rw [pyFind_embedded pre h, pyRFind_embedded pre]
  have hcond : ¬ ((pre.length : Int) = -1
      ∨ (pre.length : Int) + (arrEmbedded.length : Int) - 1 = -1
      ∨ (pre.length : Int) + (arrEmbedded.length : Int) - 1 ≤ (pre.length : Int)) := by
    intro hor
    rcases hor with h1 | h2 | h3 <;> omega
  rw [if_neg hcond]
  have hidx : (pre.length : Int) + (arrEmbedded.length : Int) - 1 + 1
      = ((pre.length + arrEmbedded.length : Nat) : Int) := by
    push_cast
    ring
  rw [hidx]
  have hlenraw : (pre ++ arrEmbedded ++ fenceTail).length
      = pre.length + arrEmbedded.length + fenceTail.length := by
    rw [List.length_append, List.length_append]
  have hslice : pySliceI (pre ++ arrEmbedded ++ fenceTail) (pre.length : Int)
      ((pre.length + arrEmbedded.length : Nat) : Int) = arrEmbedded := by
    rw [pySliceI_take_drop _ _ _ (by omega) (by omega)]
    rw [show pre.length + arrEmbedded.length = (pre ++ arrEmbedded).length by
      rw [List.length_append]]
    rw [List.take_left, List.drop_left]
  rw [hslice]

/-- C6: when the raw model output is a valid quiz array embedded in
surrounding text — any leading prose containing no `[`, and a trailing
newline-plus-code-fence close marker — the end-anchored regex fails
(the text does not end in `]`), and the fallback recovers exactly the
bracket-delimited substring from the first `[` to the last `]`, which
parses and validates, so the pipeline accepts the quiz. -/
theorem generateFromRaw_recovers_embedded_array (pre : List Char)
    (h : '[' ∉ pre) :
    generateFromRaw (pre ++ arrEmbedded ++ fenceTail)
      = Except.ok [itemEmbedded] := by
  unfold generateFromRaw
  rw [extract_embedded pre h]
  rfl

/-- Witness for C6 at a concrete leading sentence. -/
theorem generateFromRaw_recovers_embedded_array_witness :
    generateFromRaw ("Here is the quiz you asked for:\n".toList
        ++ arrEmbedded ++ fenceTail)
      = Except.ok [itemEmbedded] :=
  generateFromRaw_recovers_embedded_array "Here is the quiz you asked for:\n".toList
    (by decide)
example :
    generateFromRaw "[\x7b\"options\": [\"a\", \"b\", \"c\", \"d\"], \"correct\": \"b\"\x7d]".toList
    = Except.ok [J.obj [("options".toList,
        J.arr [J.str "a".toList, J.str "b".toList, J.str "c".toList, J.str "d".toList]),
        ("correct".toList, J.str "b".toList)]] := rfl
example :
    generateFromRaw "Sure! [\x7b\"options\": [\"a\", \"b\", \"c\", \"d\"], \"correct\": \"b\"\x7d]\n```".toList
    = Except.ok [J.obj [("options".toList,
        J.arr [J.str "a".toList, J.str "b".toList, J.str "c".toList, J.str "d".toList]),
        ("correct".toList, J.str "b".toList)]] := rfl
example :
    generateFromRaw "nothing here".toList
    = Except.error ⟨500, "No JSON array found in model output: nothing here".toList⟩ := rfl
example :
    generateFromRaw "[\x7b\"options\": [\"a\", \"b\", \"c\"], \"correct\": \"b\"\x7d]".toList
    = Except.error ⟨500, "Quiz item 0 must have 4 options".toList⟩ := rfl
